import Mathlib

/-!
Shallow embedding of the `gcp-oci-proxy` repository: two small Go programs.

The first program (`main.go`) is the index-backed pull gateway: `initDB`
builds a global list of `Asset` records from a paginated backend listing,
`extractNameAndSha` parses a raw resource identifier, and two route handlers
resolve digest- and tag-addressed pulls and stream the artifact back. The
second program is the metadata gateway: `getAssetsHandler` passes a raw path
segment to the backend's metadata lookup after a favicon check.

Go strings are modelled as `List Char`; the paginated iterator is modelled as
the list of its `Next` outcomes; filesystem and network collaborators
(credential file, registry login/pull, metadata backend) are oracles passed as
function arguments; `log.Fatal` is modelled as a distinguished `fatal` outcome
(process termination), distinct from every HTTP response.
-/

deriving instance DecidableEq for Except

namespace GcpOciProxy

/-- Go strings modelled as lists of characters. -/
abbrev Str := List Char

/-- Go `strings.Split` restricted to a one-character separator (the only way the
program uses it): splits at every occurrence of `sep`; the empty input yields
one empty field, matching Go. -/
def splitChar (sep : Char) : Str → List Str
  | [] => [[]]
  | c :: rest =>
    if c = sep then
      [] :: splitChar sep rest
    else
      match splitChar sep rest with
      | [] => [[c]]
      | s :: ss => (c :: s) :: ss

/-- Function `extractNameAndSha` from `main.go`: splits the identifier at `/`,
takes the last segment, and splits that segment at `@` into name and SHA;
errors if there are fewer than two `/`-fields or the `@`-split does not yield
exactly two parts. -/
def extractNameAndSha (input : Str) : Except Str (Str × Str) :=
  if (splitChar '/' input).length < 2 then
    .error "invalid input format".data
  else
    match splitChar '@' ((splitChar '/' input).getLastD []) with
    | [n, s] => .ok (n, s)
    | _ => .error "invalid name and SHA format".data

/-- One item of the backend listing: the fields of a `DockerImage` response the
program reads (`resp.Name`, `resp.Uri`, `resp.MediaType`, `resp.Tags`). -/
structure DockerImage where
  name : Str
  uri : Str
  mediaType : Str
  tags : List Str
deriving DecidableEq

/-- The `Asset` record of `main.go`. `tags` holds the values the stored
`*string` pointers dereference to once the build has finished (the index is
only read after `initDB` returns, so this is the view every handler sees). -/
structure Asset where
  name : Str
  sha : Str
  rawName : Str
  uri : Str
  mediaType : Str
  tags : List Str
deriving DecidableEq

/-- The tag-copy loop of `initDB`, which appends `&tag` for each `tag` ranged
over `resp.Tags`. Under the Go semantics this code targets (before Go 1.22,
matching its dependency era), `tag` is a single variable reused by every
iteration, so each appended pointer aliases that one variable, which holds the
final element of `resp.Tags` once the loop is done. Every stored pointer
therefore dereferences to the last listed tag. -/
def buildTags (tags : List Str) : List Str :=
  match tags.getLast? with
  | none => []
  | some last => tags.map fun _ => last

/-- The asset constructed by one iteration of `initDB` for a listed item whose
identifier parsed as `(n, s)`. -/
def mkAsset (n s : Str) (resp : DockerImage) : Asset :=
  { name := n, sha := s, rawName := resp.name, uri := resp.uri,
    mediaType := resp.mediaType, tags := buildTags resp.tags }

/-- One outcome of `it.Next()`: a listed item, or a non-`Done` iterator error
(`iterator.Done` is represented by the end of the list). -/
abbrev ListingStep := Except Str DockerImage

/-- Function `initDB` from `main.go`, with the global `RepositoryDB.Assets`
threaded explicitly: `db` is the state on entry, the returned list is the
state on exit (the code appends to the global and never resets it, so on error
the assets appended so far remain). -/
def initDB (db : List Asset) : List ListingStep → Except Str Unit × List Asset
  | [] => (.ok (), db)
  | .error e :: _ => (.error e, db)
  | .ok resp :: rest =>
    match extractNameAndSha resp.name with
    | .error e => (.error e, db)
    | .ok (n, s) => initDB (db ++ [mkAsset n s resp]) rest

/-- The digest route's scan over `RepositoryDB.Assets`: the first asset whose
`Name` and `SHA` both match (the loop body always returns, so the scan is a
first-match search). -/
def lookupByDigest (assets : List Asset) (n s : Str) : Option Asset :=
  match assets with
  | [] => none
  | a :: rest =>
    if a.name = n ∧ a.sha = s then some a else lookupByDigest rest n s

/-- The tag route's scan: the first asset whose `Name` matches and whose tag
list contains the requested tag (the inner loop over `asset.Tags` is a
membership test; when no tag of a name-matching asset matches, the outer loop
continues with the next asset). -/
def lookupByTag (assets : List Asset) (n t : Str) : Option Asset :=
  match assets with
  | [] => none
  | a :: rest =>
    if a.name = n ∧ t ∈ a.tags then some a else lookupByTag rest n t

/-- The match condition of the tag route: name equal and tag recorded. -/
abbrev tagHit (n t : Str) (a : Asset) : Prop := a.name = n ∧ t ∈ a.tags

/-- The round-trip property an asset built by `initDB` satisfies: parsing its
raw resource name yields exactly its name and SHA. -/
def parsesBack (a : Asset) : Prop :=
  extractNameAndSha a.rawName = .ok (a.name, a.sha)

/-- Failure of the first step of a listing remainder: the iterator returns a
non-`Done` error, or the item's identifier fails to parse. -/
def stepFails : List ListingStep → Prop
  | [] => False
  | .error _ :: _ => True
  | .ok img :: _ => ∃ e, extractNameAndSha img.name = .error e

/-- State of an `http.ResponseWriter`. `status` is the status sent on the
wire: net/http sends `200` when the handler writes (or finishes) without an
explicit `WriteHeader`, so the initial state records status 200 with
`wroteHeader = false`. -/
structure ResponseWriter where
  wroteHeader : Bool
  status : Nat
  headers : List (Str × Str)
  body : Str
deriving DecidableEq

/-- A fresh response writer: nothing written, wire status 200 by default. -/
def ResponseWriter.init : ResponseWriter :=
  { wroteHeader := false, status := 200, headers := [], body := [] }

/-- Model of `w.Header().Set(k, v)` (no handler sets the same key twice, so
appending suffices). -/
def ResponseWriter.setHeader (w : ResponseWriter) (k v : Str) : ResponseWriter :=
  { w with headers := w.headers ++ [(k, v)] }

/-- Model of `w.WriteHeader(s)`: records the status; net/http ignores a second
call. -/
def ResponseWriter.writeHeader (w : ResponseWriter) (s : Nat) : ResponseWriter :=
  if w.wroteHeader then w else { w with wroteHeader := true, status := s }

/-- Model of `w.Write(bs)` (also `io.Copy(w, ...)`): an implicit
`WriteHeader(200)` when none was written yet, then the bytes are appended to
the body. -/
def ResponseWriter.write (w : ResponseWriter) (bs : Str) : ResponseWriter :=
  let w' := if w.wroteHeader then w else { w with wroteHeader := true, status := 200 }
  { w' with body := w'.body ++ bs }

/-- What a request handler does to the process: produce a response, or call
`log.Fatal` and terminate the whole serving process. -/
inductive HandlerOutcome where
  | response (w : ResponseWriter)
  | fatal (msg : Str)
deriving DecidableEq

/-- The fields of a successful `client.Pull` the handlers read:
`result.Chart.Meta.Name`, `result.Chart.Meta.Version`, `result.Chart.Data`. -/
structure PullResult where
  metaName : Str
  metaVersion : Str
  chartData : Str
deriving DecidableEq

/-- The `Content-Disposition` value both pull handlers format:
`attachment; filename=%s-%s.tgz`. -/
def contentDispositionValue (res : PullResult) : Str :=
  "attachment; filename=".data ++ res.metaName ++ "-".data ++
    res.metaVersion ++ ".tgz".data

/-- The header key both pull handlers set. -/
def contentDispositionKey : Str := "Content-Disposition".data

/-- The digest route handler of `main.go` (closure on route
`/assetName@assetSHA`). The external collaborators are oracles: `cred` is the
outcome of `getCredential` (read of the credential file), `login uri user
secret` the outcome of `client.Login`, `pull uri` the outcome of
`client.Pull`. The source's for-loop whose body always returns is expressed as
the first-match `lookupByDigest` followed by that body; on credential, login,
or pull error the source calls `log.Fatal`; when the loop finds nothing the
handler returns having written nothing. -/
def digestHandler (assets : List Asset) (cred : Except Str (Str × Str))
    (login : Str → Str → Str → Except Str Unit)
    (pull : Str → Except Str PullResult)
    (assetName assetSHA : Str) : HandlerOutcome :=
  match lookupByDigest assets assetName assetSHA with
  | none => .response ResponseWriter.init
  | some asset =>
    match cred with
    | .error e => .fatal e
    | .ok (user, credential) =>
      match login asset.uri user credential with
      | .error e => .fatal e
      | .ok _ =>
        match pull asset.uri with
        | .error e => .fatal e
        | .ok result =>
          .response
            (((ResponseWriter.init.setHeader contentDispositionKey
                (contentDispositionValue result)).writeHeader 200).write
              result.chartData)

/-- The tag route handler of `main.go` (closure on route
`/assetName:assetTag`). Identical to the digest handler except for the
resolution scan and for not calling `WriteHeader` explicitly (the first body
write implies status 200). -/
def tagHandler (assets : List Asset) (cred : Except Str (Str × Str))
    (login : Str → Str → Str → Except Str Unit)
    (pull : Str → Except Str PullResult)
    (assetName assetTag : Str) : HandlerOutcome :=
  match lookupByTag assets assetName assetTag with
  | none => .response ResponseWriter.init
  | some asset =>
    match cred with
    | .error e => .fatal e
    | .ok (user, credential) =>
      match login asset.uri user credential with
      | .error e => .fatal e
      | .ok _ =>
        match pull asset.uri with
        | .error e => .fatal e
        | .ok result =>
          .response
            ((ResponseWriter.init.setHeader contentDispositionKey
                (contentDispositionValue result)).write result.chartData)

/-- Function `formatPath` of the metadata gateway program: requires `PROJECT`
and `REPOSITORY`, defaults `REGION` to `us-central1`, strips one leading slash
from the path and interpolates
`projects/%s/locations/%s/repositories/%s/dockerImages/%s`. -/
def formatPath (project repository region path : Str) : Except Str Str :=
  if project = [] then .error "missing project".data
  else if repository = [] then .error "missing repository".data
  else
    let region' := if region = [] then "us-central1".data else region
    let path' := if ("/".data <+: path) then path.tail else path
    .ok ("projects/".data ++ project ++ "/locations/".data ++ region' ++
      "/repositories/".data ++ repository ++ "/dockerImages/".data ++ path')

/-- Function `getImageMetadataReader` of the metadata gateway, with its
collaborators as oracles: `newClient` is the outcome of
`artifactregistry.NewClient`, `backend formattedPath` the outcome of
`GetDockerImage` followed by `json.Marshal`. The second component counts
backend (`GetDockerImage`) invocations. -/
def getImageMetadataReader (newClient : Except Str Unit)
    (backend : Str → Except Str Str)
    (project repository region path : Str) : Except Str Str × Nat :=
  if path = [] then (.error "missing path".data, 0)
  else
    let path' := if ("/".data <+: path) then path else '/' :: path
    match newClient with
    | .error e => (.error e, 0)
    | .ok _ =>
      match formatPath project repository region path' with
      | .error e => (.error e, 0)
      | .ok formattedPath =>
        match backend formattedPath with
        | .error e => (.error e, 1)
        | .ok body => (.ok body, 1)

/-- Function `getAssetsHandler` of the metadata gateway: a path containing
`.ico` (`strings.Contains`) is rejected with 404 before anything else;
otherwise the metadata is fetched and copied to the response, backend or
client errors yielding a 500 with the error text. The second component counts
backend invocations. -/
def getAssetsHandler (newClient : Except Str Unit)
    (backend : Str → Except Str Str)
    (project repository region path : Str) : ResponseWriter × Nat :=
  if ".ico".data <:+: path then
    ((ResponseWriter.init.writeHeader 404).write "404 Not Found\n".data, 0)
  else
    match getImageMetadataReader newClient backend project repository region path with
    | (.error e, cnt) => ((ResponseWriter.init.writeHeader 500).write e, cnt)
    | (.ok body, cnt) => (ResponseWriter.init.write body, cnt)

/-- Test fixture: a listed item whose identifier is `r/x@s1`. -/
def imgX : DockerImage :=
  { name := "r/x@s1".data, uri := "oci://example/x".data,
    mediaType := "m".data, tags := [] }

/-- Test fixture: the asset `initDB` builds from `imgX`. -/
def assetX : Asset := mkAsset "x".data "s1".data imgX

/-- Test fixture: the listing step carrying `imgX`. -/
def stepX : ListingStep := .ok imgX

/-- Test fixture: a listed item carrying two tags, `v1` then `latest`. -/
def imgVL : DockerImage :=
  { name := "r/x@s1".data, uri := "oci://example/x".data,
    mediaType := "m".data, tags := ["v1".data, "latest".data] }

/-- Test fixture: an indexed asset named `b` with digest `sha256:1` and tag
`v1`. -/
def assetB : Asset :=
  { name := "b".data, sha := "sha256:1".data, rawName := "a/b@sha256:1".data,
    uri := "oci://example/b".data, mediaType := "m".data, tags := ["v1".data] }

/-- Test fixture: a second asset with the same name and tag as `assetB` but a
different digest, listed after it. -/
def assetB2 : Asset :=
  { name := "b".data, sha := "sha256:2".data, rawName := "a/b@sha256:2".data,
    uri := "oci://example/b2".data, mediaType := "m".data, tags := ["v1".data] }

/-- Test fixture: a successful credential read. -/
def credOk : Except Str (Str × Str) := .ok ("_json_key".data, "keyjson".data)

/-- Test fixture: a failed credential read (missing file). -/
def credMissing : Except Str (Str × Str) :=
  .error "open /secrets/key.json: no such file or directory".data

/-- Test fixture: a login oracle that always succeeds. -/
def loginOk : Str → Str → Str → Except Str Unit := fun _ _ _ => .ok ()

/-- Test fixture: a successful pull result. -/
def resY : PullResult :=
  { metaName := "b".data, metaVersion := "0.1.0".data, chartData := "tgzbytes".data }

/-- Test fixture: a pull oracle that always returns `resY`. -/
def pullY : Str → Except Str PullResult := fun _ => .ok resY

theorem splitChar_ne_nil (sep : Char) (l : Str) : splitChar sep l ≠ [] := by
  induction l with
  | nil => simp [splitChar]
  | cons c rest ih =>
    simp only [splitChar]
    split
    · simp
    · split
      · simp
      · simp

theorem length_splitChar (sep : Char) (l : Str) :
    (splitChar sep l).length = l.count sep + 1 := by
  induction l with
  | nil => simp [splitChar]
  | cons c rest ih =>
    by_cases h : c = sep
    · subst h
      simp [splitChar, ih, List.count_cons_self]
    · cases hsp : splitChar sep rest with
      | nil => exact absurd hsp (splitChar_ne_nil _ _)
      | cons s ss =>
        rw [hsp] at ih
        simp only [splitChar, if_neg h, hsp]
        simp only [List.length_cons] at ih ⊢
        rw [List.count_cons_of_ne (Ne.symm h)]
        omega

theorem splitChar_of_not_mem {sep : Char} {l : Str} (h : sep ∉ l) :
    splitChar sep l = [l] := by
  induction l with
  | nil => simp [splitChar]
  | cons c rest ih =>
    have hc : c ≠ sep := fun hc => h (hc ▸ List.mem_cons_self c rest)
    have hr : sep ∉ rest := fun hr => h (List.mem_cons_of_mem c hr)
    simp [splitChar, if_neg hc, ih hr]

theorem splitChar_pair {sep : Char} {l a b : Str}
    (h : splitChar sep l = [a, b]) :
    l = a ++ sep :: b ∧ sep ∉ a ∧ sep ∉ b := by
  induction l generalizing a with
  | nil => simp [splitChar] at h
  | cons c rest ih =>
    by_cases hc : c = sep
    · subst hc
      rw [splitChar, if_pos rfl, List.cons.injEq] at h
      obtain ⟨ha, hb⟩ := h
      have hlen := length_splitChar c rest
      rw [hb] at hlen
      simp only [List.length_cons, List.length_nil] at hlen
      have hnot : c ∉ rest := by
        rw [← List.count_eq_zero]
        omega
      have heq : ([rest] : List Str) = [b] :=
        (splitChar_of_not_mem hnot).symm.trans hb
      have hrb : rest = b := by injection heq
      subst hrb
      exact ⟨by simp [← ha], by simp [← ha], hnot⟩
    · cases hsp : splitChar sep rest with
      | nil => exact absurd hsp (splitChar_ne_nil _ _)
      | cons s ss =>
        simp only [splitChar, if_neg hc, hsp, List.cons.injEq] at h
        obtain ⟨ha, hss⟩ := h
        have : splitChar sep rest = [s, b] := by rw [hsp, hss]
        obtain ⟨hrest, hs, hb⟩ := ih (a := s) this
        subst ha
        refine ⟨by simp [hrest], ?_, hb⟩
        simp only [List.mem_cons]
        rintro (h1 | h2)
        · exact hc h1.symm
        · exact hs h2

theorem extractNameAndSha_ok_iff (input n s : Str) :
    extractNameAndSha input = .ok (n, s) ↔
      2 ≤ (splitChar '/' input).length ∧
        splitChar '@' ((splitChar '/' input).getLastD []) = [n, s] := by
  unfold extractNameAndSha
  by_cases hlen : (splitChar '/' input).length < 2
  · simp only [if_pos hlen]
    constructor
    · intro h
      simp at h
    · rintro ⟨h1, -⟩
      omega
  · have h2 : 2 ≤ (splitChar '/' input).length := by omega
    cases hsp : splitChar '@' ((splitChar '/' input).getLastD []) with
    | nil => exact absurd hsp (splitChar_ne_nil _ _)
    | cons x t =>
      cases t with
      | nil => simp [hlen]
      | cons y t2 =>
        cases t2 with
        | nil => simp [hlen, h2, and_assoc]
        | cons z t3 => simp [hlen]

/-- Claim C4: parsing a raw resource identifier succeeds iff it has at least
two slash-separated path segments and its trailing segment contains exactly
one `@`; on success the trailing segment decomposes as `name ++ '@' :: sha`
with the separator in neither part, so the portion before the `@` is returned
as the name and the portion after it as the digest; in every other case the
parse fails. -/
theorem extractNameAndSha_correct (input : Str) :
    ((∃ n s, extractNameAndSha input = .ok (n, s)) ↔
      2 ≤ (splitChar '/' input).length ∧
        ((splitChar '/' input).getLastD []).count '@' = 1) ∧
    ∀ n s, extractNameAndSha input = .ok (n, s) →
      (splitChar '/' input).getLastD [] = n ++ '@' :: s ∧ '@' ∉ n ∧ '@' ∉ s := by
  constructor
  · constructor
    · rintro ⟨n, s, h⟩
      rw [extractNameAndSha_ok_iff] at h
      obtain ⟨h1, h2⟩ := h
      refine ⟨h1, ?_⟩
      have hl := length_splitChar '@' ((splitChar '/' input).getLastD [])
      rw [h2] at hl
      simp only [List.length_cons, List.length_nil] at hl
      omega
    · rintro ⟨h1, h2⟩
      have hl := length_splitChar '@' ((splitChar '/' input).getLastD [])
      rw [h2] at hl
      obtain ⟨a, b, hab⟩ := List.length_eq_two.mp hl
      exact ⟨a, b, (extractNameAndSha_ok_iff input a b).mpr ⟨h1, hab⟩⟩
  · intro n s h
    rw [extractNameAndSha_ok_iff] at h
    exact splitChar_pair h.2

/-- Witness for C4 at the concrete identifier `r/x@s1`. -/
theorem extractNameAndSha_correct_witness :
    (splitChar '/' "r/x@s1".data).getLastD [] = "x".data ++ '@' :: "s1".data ∧
      '@' ∉ "x".data ∧ '@' ∉ "s1".data :=
  (extractNameAndSha_correct "r/x@s1".data).2 "x".data "s1".data (by decide)

theorem initDB_state_append (db : List Asset) (L : List ListingStep) :
    initDB db L = ((initDB [] L).1, db ++ (initDB [] L).2) := by
  induction L generalizing db with
  | nil => simp [initDB]
  | cons step rest ih =>
    cases step with
    | error e => simp [initDB]
    | ok resp =>
      cases hp : extractNameAndSha resp.name with
      | error e => simp [initDB, hp]
      | ok ns =>
        obtain ⟨n, s⟩ := ns
        simp only [initDB, hp]
        rw [ih (db ++ [mkAsset n s resp]), ih ([] ++ [mkAsset n s resp])]
        simp

theorem initDB_append_listing (db : List Asset) (L1 L2 : List ListingStep) :
    initDB db (L1 ++ L2) =
      match initDB db L1 with
      | (.ok _, db1) => initDB db1 L2
      | (.error e, db1) => (.error e, db1) := by
  induction L1 generalizing db with
  | nil => simp [initDB]
  | cons step rest ih =>
    cases step with
    | error e => simp [initDB]
    | ok resp =>
      cases hp : extractNameAndSha resp.name with
      | error e => simp [initDB, hp]
      | ok ns =>
        obtain ⟨n, s⟩ := ns
        simp only [List.cons_append, initDB, hp]
        exact ih _

theorem initDB_parses (L : List ListingStep) (db A : List Asset)
    (hdb : ∀ a ∈ db, parsesBack a)
    (h : initDB db L = (.ok (), A)) :
    ∀ a ∈ A, parsesBack a := by
  induction L generalizing db with
  | nil =>
    simp only [initDB, Prod.mk.injEq] at h
    exact h.2 ▸ hdb
  | cons step rest ih =>
    cases step with
    | error e => simp [initDB] at h
    | ok resp =>
      cases hp : extractNameAndSha resp.name with
      | error e => simp [initDB, hp] at h
      | ok ns =>
        obtain ⟨n, s⟩ := ns
        simp only [initDB, hp] at h
        refine ih (db ++ [mkAsset n s resp]) ?_ h
        intro a ha
        rcases List.mem_append.mp ha with h1 | h2
        · exact hdb a h1
        · simp only [List.mem_singleton] at h2
          subst h2
          simpa [parsesBack, mkAsset] using hp

theorem lookupByDigest_self (A : List Asset)
    (hdist : A.Pairwise fun x y => x.name ≠ y.name ∨ x.sha ≠ y.sha)
    {a : Asset} (ha : a ∈ A) :
    lookupByDigest A a.name a.sha = some a := by
  induction A with
  | nil => simp at ha
  | cons b rest ih =>
    rw [List.pairwise_cons] at hdist
    rcases List.mem_cons.mp ha with rfl | hmem
    · simp [lookupByDigest]
    · have hne := hdist.1 a hmem
      have hcond : ¬(b.name = a.name ∧ b.sha = a.sha) := by
        rintro ⟨h1, h2⟩
        rcases hne with h | h
        · exact h h1
        · exact h h2
      simp only [lookupByDigest, if_neg hcond]
      exact ih hdist.2 hmem

/-- Claim C3: every asset a completed build placed in the index came from a
raw identifier of the form `.../name@digest` — parsing its recorded raw name
returns exactly its name and digest — and, provided the built index satisfies
the stated uniqueness invariant on `(name, digest)` pairs, the digest route's
scan with exactly that pair returns that asset. -/
theorem digestRoundTrip (L : List ListingStep) (A : List Asset)
    (hbuild : initDB [] L = (.ok (), A))
    (hdist : A.Pairwise fun x y => x.name ≠ y.name ∨ x.sha ≠ y.sha) :
    ∀ a ∈ A, extractNameAndSha a.rawName = .ok (a.name, a.sha) ∧
      lookupByDigest A a.name a.sha = some a := by
  intro a ha
  exact ⟨initDB_parses L [] A (by simp) hbuild a ha,
    lookupByDigest_self A hdist ha⟩

/-- Witness for C3 on a one-item listing carrying `r/x@s1`. -/
theorem digestRoundTrip_witness :
    extractNameAndSha assetX.rawName = .ok (assetX.name, assetX.sha) ∧
      lookupByDigest [assetX] assetX.name assetX.sha = some assetX :=
  digestRoundTrip [stepX] [assetX] (by decide) (by simp) assetX (by simp)

/-- Claim C7 counterexample: the build appends to the global index without
resetting it, so running the build twice over the same one-item listing leaves
the index with two copies — the index after the second build differs from the
index after the first. -/
theorem rebuildNotIdempotent :
    (initDB (initDB [] [stepX]).2 [stepX]).2 = [assetX, assetX] ∧
    (initDB [] [stepX]).2 = [assetX] ∧
    decide ((initDB (initDB [] [stepX]).2 [stepX]).2 =
      (initDB [] [stepX]).2) = false := by
  decide

/-- Claim C7 (amended): the build is a deterministic function of the listing —
any build started from the empty index state yields the same asset sequence —
but a second build in the same process does not reproduce the first index: it
appends a second identical copy, leaving the global equal to the first result
concatenated with itself. -/
theorem rebuildAppendsDuplicate (L : List ListingStep) (A : List Asset)
    (h : initDB [] L = (.ok (), A)) :
    initDB A L = (.ok (), A ++ A) := by
  rw [initDB_state_append A L, h]

/-- Witness for the amended C7 on the one-item listing. -/
theorem rebuildAppendsDuplicate_witness :
    initDB [assetX] [stepX] = (.ok (), [assetX] ++ [assetX]) :=
  rebuildAppendsDuplicate [stepX] [assetX] (by decide)

/-- Claim C10: when the build fails partway — the listing's next step is an
iterator error or an unparsable identifier — after a prefix of good items, the
build returns the error and the global index is left holding exactly the
assets built from the preceding items: the build does not roll back. -/
theorem partialBuildKeepsPrefix (db A : List Asset) (good rest : List ListingStep)
    (hgood : initDB [] good = (.ok (), A))
    (hfail : stepFails rest) :
    ∃ e, initDB db (good ++ rest) = (.error e, db ++ A) := by
  have h1 : initDB db good = (.ok (), db ++ A) := by
    rw [initDB_state_append db good, hgood]
  rw [initDB_append_listing db good rest, h1]
  cases rest with
  | nil => exact absurd hfail (by simp [stepFails])
  | cons step rest2 =>
    cases step with
    | error e => exact ⟨e, by simp [initDB]⟩
    | ok img =>
      obtain ⟨e, he⟩ := hfail
      exact ⟨e, by simp [initDB, he]⟩

/-- Witness for C10: one good item followed by an unparsable identifier. -/
theorem partialBuildKeepsPrefix_witness :
    ∃ e, initDB [] ([stepX] ++ [.ok ⟨"nodigest".data, [], [], []⟩]) =
      (.error e, [] ++ [assetX]) :=
  partialBuildKeepsPrefix [] [assetX] [stepX] [.ok ⟨"nodigest".data, [], [], []⟩]
    (by decide) ⟨"invalid input format".data, by decide⟩

/-- Claim C5: tag-addressed resolution returns the first asset in build order
whose name matches and whose recorded tag set contains the tag — stated for
every asset list, so duplicate tags across distinct assets resolve
deterministically to the first asset encountered during the build, whatever
the underlying listing order was — and it returns nothing exactly when no
asset matches. -/
theorem lookupByTagFirstMatch (A : List Asset) (n t : Str) :
    (∀ a, lookupByTag A n t = some a ↔
      ∃ pre post, A = pre ++ a :: post ∧ tagHit n t a ∧
        ∀ b ∈ pre, ¬ tagHit n t b) ∧
    (lookupByTag A n t = none ↔ ∀ b ∈ A, ¬ tagHit n t b) := by
  induction A with
  | nil =>
    constructor
    · intro a
      constructor
      · intro h
        simp [lookupByTag] at h
      · rintro ⟨pre, post, habs, -, -⟩
        exact absurd habs (by simp)
    · simp [lookupByTag]
  | cons c rest ih =>
    by_cases hc : tagHit n t c
    · constructor
      · intro a
        simp only [lookupByTag, if_pos hc]
        constructor
        · intro h
          obtain rfl : c = a := by injection h
          exact ⟨[], rest, rfl, hc, by simp⟩
        · rintro ⟨pre, post, hsplit, hhit, hmiss⟩
          cases pre with
          | nil =>
            simp only [List.nil_append] at hsplit
            obtain ⟨h1, -⟩ : c = a ∧ rest = post := by
              injection hsplit with h1 h2
              exact ⟨h1, h2⟩
            rw [h1]
          | cons p pre2 =>
            obtain ⟨h1, -⟩ : c = p ∧ rest = pre2 ++ a :: post := by
              injection hsplit with h1 h2
              exact ⟨h1, h2⟩
            exact absurd hc (h1 ▸ hmiss p (by simp))
      · simp only [lookupByTag, if_pos hc]
        constructor
        · intro h
          simp at h
        · intro h
          exact absurd hc (h c (by simp))
    · have hcond : ¬(c.name = n ∧ t ∈ c.tags) := hc
      constructor
      · intro a
        simp only [lookupByTag, if_neg hcond]
        rw [ih.1 a]
        constructor
        · rintro ⟨pre, post, hsplit, hhit, hmiss⟩
          refine ⟨c :: pre, post, by simp [hsplit], hhit, ?_⟩
          intro b hb
          rcases List.mem_cons.mp hb with rfl | hb2
          · exact hc
          · exact hmiss b hb2
        · rintro ⟨pre, post, hsplit, hhit, hmiss⟩
          cases pre with
          | nil =>
            simp only [List.nil_append] at hsplit
            obtain ⟨h1, -⟩ : c = a ∧ rest = post := by
              injection hsplit with h1 h2
              exact ⟨h1, h2⟩
            exact absurd (h1 ▸ hhit) hc
          | cons p pre2 =>
            obtain ⟨h1, h2⟩ : c = p ∧ rest = pre2 ++ a :: post := by
              injection hsplit with h1 h2
              exact ⟨h1, h2⟩
            exact ⟨pre2, post, h2, hhit, fun b hb => hmiss b (by simp [hb])⟩
      · simp only [lookupByTag, if_neg hcond]
        rw [ih.2]
        constructor
        · intro h b hb
          rcases List.mem_cons.mp hb with rfl | hb2
          · exact hc
          · exact h b hb2
        · intro h b hb
          exact h b (List.mem_cons_of_mem c hb)

/-- Witness for C5: two distinct assets share name `b` and tag `v1`;
resolution yields the first of them in build order. -/
theorem lookupByTagFirstMatch_witness :
    ∃ pre post, [assetB, assetB2] = pre ++ assetB :: post ∧
      tagHit "b".data "v1".data assetB ∧
      ∀ b ∈ pre, ¬ tagHit "b".data "v1".data b :=
  ((lookupByTagFirstMatch [assetB, assetB2] "b".data "v1".data).1 assetB).mp
    (by decide)

/-- Claim C1 (code bug): inside the digest route handler a failed credential
read is passed to `log.Fatal` — the outcome is termination of the whole
serving process, not a 5xx response confined to the triggering request. -/
theorem credentialFailureFatal :
    digestHandler [assetB] credMissing loginOk pullY "b".data "sha256:1".data =
      .fatal "open /secrets/key.json: no such file or directory".data := by
  decide

/-- Claim C2 (code bug): a digest request whose (name, digest) pair matches no
indexed asset falls off the handler loop without writing anything — the
response is the untouched writer, i.e. wire status 200 with an empty body —
not an explicit 404. -/
theorem missLookupSilentEmpty :
    digestHandler [assetB] credOk loginOk pullY "b".data "sha256:2".data =
      .response ResponseWriter.init ∧
    ResponseWriter.init.wroteHeader = false ∧
    ResponseWriter.init.status = 200 ∧
    ResponseWriter.init.body = [] := by
  decide

/-- Claim C6 (code bug): for a listed item reported with tags `v1` then
`latest`, the completed build records as the asset's tag list two copies of
`latest` — the loop-variable capture in the tag append loop stores pointers
that all dereference to the last reported tag — so the recorded tag set does
not contain exactly the reported tag strings, and `v1` is not recorded at
all. -/
theorem tagCaptureBug :
    (initDB [] [.ok imgVL]).2.map Asset.tags =
      [["latest".data, "latest".data]] ∧
    imgVL.tags = ["v1".data, "latest".data] ∧
    (["latest".data, "latest".data] : List Str).contains "v1".data = false := by
  decide

/-- Claim C8: when a digest-addressed request and a tag-addressed request
resolve to the same indexed asset, the two handlers produce identical
outcomes; in particular, on a successful credential read, login and pull,
both produce the same success response — status 200, the single
`Content-Disposition` attachment header derived from the pulled metadata, and
the full chart bytes as body. -/
theorem digestTagSameResponse (A : List Asset) (cred : Except Str (Str × Str))
    (login : Str → Str → Str → Except Str Unit)
    (pull : Str → Except Str PullResult) (n d t : Str) (a : Asset)
    (hd : lookupByDigest A n d = some a)
    (ht : lookupByTag A n t = some a) :
    digestHandler A cred login pull n d = tagHandler A cred login pull n t ∧
    (∀ user secret res, cred = .ok (user, secret) →
      login a.uri user secret = .ok () → pull a.uri = .ok res →
      digestHandler A cred login pull n d =
        .response { wroteHeader := true, status := 200,
                    headers := [(contentDispositionKey, contentDispositionValue res)],
                    body := res.chartData }) := by
  constructor
  · simp only [digestHandler, tagHandler, hd, ht]
    cases cred with
    | error e => rfl
    | ok uc =>
      obtain ⟨user, secret⟩ := uc
      cases hl : login a.uri user secret with
      | error e => rfl
      | ok u =>
        cases hp : pull a.uri with
        | error e => rfl
        | ok res =>
          simp [ResponseWriter.init, ResponseWriter.setHeader,
            ResponseWriter.writeHeader, ResponseWriter.write]
  · intro user secret res hcred hlogin hpull
    simp [digestHandler, hd, hcred, hlogin, hpull, ResponseWriter.init,
      ResponseWriter.setHeader, ResponseWriter.writeHeader, ResponseWriter.write]

/-- Witness for C8 on `assetB`, resolved by digest `sha256:1` and by tag
`v1`. -/
theorem digestTagSameResponse_witness :
    digestHandler [assetB] credOk loginOk pullY "b".data "sha256:1".data =
      tagHandler [assetB] credOk loginOk pullY "b".data "v1".data :=
  (digestTagSameResponse [assetB] credOk loginOk pullY "b".data
    "sha256:1".data "v1".data assetB (by decide) (by decide)).1

/-- Claim C9: a metadata-gateway request whose path segment ends in `.ico` is
answered with the 404 branch directly, with zero backend invocations. -/
theorem faviconNoBackend (newClient : Except Str Unit)
    (backend : Str → Except Str Str) (project repository region path : Str)
    (h : ".ico".data <:+ path) :
    (getAssetsHandler newClient backend project repository region path).1 =
      (ResponseWriter.init.writeHeader 404).write "404 Not Found\n".data ∧
    (getAssetsHandler newClient backend project repository region path).1.status = 404 ∧
    (getAssetsHandler newClient backend project repository region path).2 = 0 := by
  have hin : ".ico".data <:+: path := h.isInfix
  refine ⟨?_, ?_, ?_⟩ <;>
    simp [getAssetsHandler, hin, ResponseWriter.init,
      ResponseWriter.writeHeader, ResponseWriter.write]

/-- Witness for C9 at the concrete path `favicon.ico`. -/
theorem faviconNoBackend_witness :
    (getAssetsHandler (.ok ()) (fun _ => .ok "meta".data) "p".data "r".data []
      "favicon.ico".data).1.status = 404 ∧
    (getAssetsHandler (.ok ()) (fun _ => .ok "meta".data) "p".data "r".data []
      "favicon.ico".data).2 = 0 :=
  have h := faviconNoBackend (.ok ()) (fun _ => .ok "meta".data) "p".data
    "r".data [] "favicon.ico".data ⟨"favicon".data, by decide⟩
  ⟨h.2.1, h.2.2⟩

end GcpOciProxy
